import Mathlib

/-!
Verification development for the ZenPDF worker (apps/worker/zenpdf_worker).

Shallow embedding of the worker runtime (`worker.py`), the tool helpers
(`tools.py`) and the Convex client (`client.py`). Python strings are
modelled as `List Char`, Python ints as `Int`, Python floats as exact
rationals `ℚ` (float rounding is idealised away; all concrete inputs used
below are exactly representable), and fallible Python code as
`Except`/`Option` values. External effects (subprocess runs, DNS, HTTP
responses, PDF library results) are supplied as explicit oracle data in
environment structures, mirroring the control flow of the source line by
line.
-/

namespace ZenPDF

/-! ## Python primitives -/

/-- Python truncation toward zero, the meaning of `int(x)` on a numeric
value: floor for nonnegative arguments, ceiling for negative ones. -/
def pyTrunc (q : ℚ) : Int :=
  if q < 0 then ⌈q⌉ else ⌊q⌋

/-- ASCII whitespace stripped by Python `str.strip()` and ignored by
`int(str)` (the model is restricted to ASCII text). -/
def isPyWhitespace (c : Char) : Bool :=
  c = ' ' || c = '\t' || c = '\n' || c = '\r' || c = '\x0b' || c = '\x0c'

/-- Python `str.strip()`: drop whitespace from both ends. -/
def pyStrip (s : List Char) : List Char :=
  ((s.dropWhile isPyWhitespace).reverse.dropWhile isPyWhitespace).reverse

/-- ASCII digit test. -/
def isDigitChar (c : Char) : Bool :=
  '0' ≤ c && c ≤ '9'

/-- After an initial digit, a Python integer literal continues with digits
possibly separated by single underscores (no trailing or doubled
underscore). -/
def digitsTail : List Char → Bool
  | [] => true
  | '_' :: c :: rest => isDigitChar c && digitsTail rest
  | ['_'] => false
  | c :: rest => isDigitChar c && digitsTail rest

/-- A nonempty digit group accepted by Python `int` after the optional
sign: a digit followed by `digitsTail`. -/
def validDigits : List Char → Bool
  | [] => false
  | c :: rest => isDigitChar c && digitsTail rest

/-- Numeric value of a digit list (underscores removed beforehand). -/
def digitsVal (l : List Char) : Nat :=
  l.foldl (fun a c => a * 10 + (c.toNat - 48)) 0

/-- Unsigned part of Python `int(str)`: validate the digit group and read
its value with underscores removed. -/
def pyIntUnsigned (l : List Char) : Option Int :=
  if validDigits l then some (digitsVal (l.filter (fun c => c ≠ '_'))) else none

/-- Python `int(str)` on ASCII input: strip whitespace, optional single
sign, then the digit group. `none` models the raised `ValueError`. -/
def pyIntOfChars (s : List Char) : Option Int :=
  match pyStrip s with
  | '+' :: rest => pyIntUnsigned rest
  | '-' :: rest => (pyIntUnsigned rest).map (fun n => -n)
  | t => pyIntUnsigned t

/-- JSON-bred Python values a job `config` entry may hold. `pyFloat`
carries the exact rational value of the float (finite floats only).
`pyList` and `pyDict` are abstract: `int()` rejects them with
`TypeError`, which is all the worker observes. A missing key surfaces as
`pyNone` via `dict.get`. -/
inductive PyVal where
  | pyNone
  | pyBool (b : Bool)
  | pyInt (n : Int)
  | pyFloat (q : ℚ)
  | pyStr (s : List Char)
  | pyList (id : Nat)
  | pyDict (id : Nat)
deriving DecidableEq, Repr

/-- Python `int(value)` over `PyVal`, returning `none` when it raises
`TypeError` or `ValueError` (the classes caught by `_parse_int`). -/
def pyIntOfVal : PyVal → Option Int
  | .pyNone => none
  | .pyBool b => some (if b then 1 else 0)
  | .pyInt n => some n
  | .pyFloat q => some (pyTrunc q)
  | .pyStr s => pyIntOfChars s
  | .pyList _ => none
  | .pyDict _ => none

/-- Embedding of `worker.py` `_parse_int(value, default)`: `int(value)`
with `TypeError`/`ValueError` falling back to the default. -/
def parseInt (value : PyVal) (default : Int) : Int :=
  (pyIntOfVal value).getD default

/-- Embedding of the rotate arm of `ZenPdfWorker._run_tool`
(worker.py lines 296-300): `angle = _parse_int(config.get("angle"), 90)`
then any parsed value outside 90/180/270 is replaced by 90. The argument
is the raw `config.get("angle")` value (`pyNone` when missing). -/
def resolveRotateAngle (value : PyVal) : Int :=
  let angle := parseInt value 90
  if angle = 90 ∨ angle = 180 ∨ angle = 270 then angle else 90

/-! ## Page-range parsing (tools.py `_parse_ranges`, `_parse_page_list`) -/

/-- Integer interval `[s, e]` as an ordered list, the meaning of Python
`range(start, end + 1)` over our `Int` bounds. -/
def intRange (s e : Int) : List Int :=
  (List.range (e + 1 - s).toNat).map (fun (i : Nat) => s + (i : Int))

/-- Per-token step of `_parse_ranges` (tools.py lines 42-56): strip the
token, skip it when empty, split once on the first `-` when present,
parse both endpoints with Python `int`, clamp `start := max(1, ·)` and
`end := min(totalPages, ·)`, and emit only when `start ≤ end`. -/
def parseRangeToken (totalPages : Int) (part : List Char) : Option (Int × Int) :=
  let cleaned := pyStrip part
  if cleaned.isEmpty then none
  else
    let se :=
      if cleaned.contains '-' then
        (cleaned.takeWhile (fun c => c ≠ '-'), (cleaned.dropWhile (fun c => c ≠ '-')).tail)
      else (cleaned, cleaned)
    match pyIntOfChars se.1, pyIntOfChars se.2 with
    | some a, some b =>
        let s := max 1 a
        let e := min totalPages b
        if s ≤ e then some (s, e) else none
    | _, _ => none

/-- Embedding of `_parse_ranges(value, total_pages)`: split on commas and
process each token with `parseRangeToken`. -/
def parseRanges (value : List Char) (totalPages : Int) : List (Int × Int) :=
  (value.splitOn ',').filterMap (parseRangeToken totalPages)

/-- Embedding of `_parse_page_list(value, total_pages)`: expand each range
in order (duplicates kept) and filter to `1 ≤ page ≤ totalPages`. -/
def parsePageList (value : List Char) (totalPages : Int) : List Int :=
  (((parseRanges value totalPages).map (fun r => intRange r.1 r.2)).flatten).filter
    (fun p => 1 ≤ p && p ≤ totalPages)

/-- Spec-side token semantics, written from the spec's words: a token is
`N` or `A-B`, whitespace around it is ignored, non-numeric tokens are
silently dropped, bounds are clamped to `start := max(1, A)`,
`end := min(totalPages, B)`, and the range is emitted only when
`start ≤ end`. -/
def specRangeToken (totalPages : Int) (token : List Char) : Option (Int × Int) :=
  let t := pyStrip token
  let ab :=
    if t.contains '-' then
      (t.takeWhile (fun c => c ≠ '-'), (t.dropWhile (fun c => c ≠ '-')).tail)
    else (t, t)
  match pyIntOfChars ab.1, pyIntOfChars ab.2 with
  | some a, some b =>
      if max 1 a ≤ min totalPages b then some (max 1 a, min totalPages b) else none
  | _, _ => none

/-- Spec-side page expansion: comma-separated tokens, each mapped by
`specRangeToken`, expanded in document order with duplicates kept and no
further filtering. -/
def specPageList (value : List Char) (totalPages : Int) : List Int :=
  (((value.splitOn ',').filterMap (specRangeToken totalPages)).map
    (fun r => intRange r.1 r.2)).flatten

/-! ## Compression timeout formulas (tools.py lines 258-259, 477-495) -/

/-- Parsed environment configuration feeding the compression timeout
computation. Integer knobs come from `_env_int`, the per-page coefficient
from `_env_float` (default 1.5). -/
structure CompressTimeoutEnv where
  override : Int
  base : Int
  perMb : Int
  perPage : ℚ
  maxT : Int
  probeMax : Int
  sizeBytes : Nat
  pages : Nat
deriving DecidableEq, Repr

/-- `size_mb = max(1, math.ceil(size_bytes / (1024 * 1024)))`
(tools.py line 259). -/
def sizeMbOf (sizeBytes : Nat) : Int :=
  max 1 ⌈(sizeBytes : ℚ) / (1024 * 1024)⌉

/-- Embedding of the per-subprocess timeout (tools.py lines 477-489): the
override when positive, else
`min(max, int(base + size_mb * per_mb + pages * per_page))`. -/
def timeoutSecondsOf (e : CompressTimeoutEnv) : Int :=
  if 0 < e.override then e.override
  else
    min e.maxT
      (pyTrunc ((e.base : ℚ) + (sizeMbOf e.sizeBytes : ℚ) * (e.perMb : ℚ)
        + (e.pages : ℚ) * e.perPage))

/-- Embedding of the probe timeout (tools.py lines 492-495):
`min(probe_max, max(10, int(timeout_seconds * 0.25)))`. -/
def probeTimeoutOf (e : CompressTimeoutEnv) : Int :=
  min e.probeMax (max 10 (pyTrunc ((timeoutSecondsOf e : ℚ) * (25 / 100))))

/-- Timeout formula exactly as the claim words it, in exact arithmetic
with no integer truncation: `min(max, base + sizeMb*perMb + pages*perPage)`
(or the override when positive). -/
def claimTimeoutQ (e : CompressTimeoutEnv) : ℚ :=
  if 0 < e.override then (e.override : ℚ)
  else
    min (e.maxT : ℚ)
      ((e.base : ℚ) + (sizeMbOf e.sizeBytes : ℚ) * (e.perMb : ℚ)
        + (e.pages : ℚ) * e.perPage)

/-- Probe formula exactly as the claim words it:
`min(probeMax, max(10, 0.25 * timeout))` in exact arithmetic, applied to
the timeout the code actually uses. -/
def claimProbeQ (e : CompressTimeoutEnv) : ℚ :=
  min (e.probeMax : ℚ) (max 10 ((timeoutSecondsOf e : ℚ) * (25 / 100)))

/-! ## Worker job lifecycle (worker.py `ZenPdfWorker._process_job`) -/

/-- Python exception classes distinguished by the `except` clauses of
`_process_job`: `ValueError` (and subclasses), `ConvexError`
(client.py), and every other `Exception`. -/
inductive ExcClass where
  | valueError
  | convexError
  | otherError
deriving DecidableEq, Repr

/-- Outcome of one step of `_process_job`: it either returns or raises an
exception of a given class with a given text. -/
inductive StepResult where
  | ok
  | raises (c : ExcClass) (msg : String)
deriving DecidableEq, Repr

/-- Whether a step returned normally. -/
def StepResult.isOk : StepResult → Bool
  | .ok => true
  | .raises _ _ => false

/-- The exception a step raised, if any. -/
def StepResult.err : StepResult → Option (ExcClass × String)
  | .ok => none
  | .raises c m => some (c, m)

/-- Oracle describing one run of `_process_job`: the outcome of each
sequential step of the `try` block (worker.py lines 146-170), in source
order, plus whether the `failJob` mutation inside `_safe_fail` itself
succeeds. -/
structure JobScript where
  report10 : StepResult
  download : StepResult
  report40 : StepResult
  runTool : StepResult
  report75 : StepResult
  upload : StepResult
  complete : StepResult
  report100 : StepResult
  failRpcOk : Bool
deriving DecidableEq, Repr

/-- Queue-visible RPC attempts issued by `_process_job`. The `ok` flag
records whether the mutation succeeded; only successful mutations are
observed by the queue. -/
inductive Event where
  | progress (value : Nat) (ok : Bool)
  | completeJob (ok : Bool)
  | failJob (errorCode : String) (errorMessage : String) (ok : Bool)
deriving DecidableEq, Repr

/-- The `try` block of `_process_job` (worker.py lines 146-170): report
progress 10, download inputs, report 40, run the tool, report 75, upload
outputs, issue `completeJob`, report progress 100. Returns the RPC
attempts made and the first exception escaping the block, if any. -/
def mainPhase (s : JobScript) : List Event × Option (ExcClass × String) :=
  let e10 := Event.progress 10 s.report10.isOk
  match s.report10.err with
  | some err => ([e10], some err)
  | none =>
  match s.download.err with
  | some err => ([e10], some err)
  | none =>
  let e40 := Event.progress 40 s.report40.isOk
  match s.report40.err with
  | some err => ([e10, e40], some err)
  | none =>
  match s.runTool.err with
  | some err => ([e10, e40], some err)
  | none =>
  let e75 := Event.progress 75 s.report75.isOk
  match s.report75.err with
  | some err => ([e10, e40, e75], some err)
  | none =>
  match s.upload.err with
  | some err => ([e10, e40, e75], some err)
  | none =>
  let ec := Event.completeJob s.complete.isOk
  match s.complete.err with
  | some err => ([e10, e40, e75, ec], some err)
  | none =>
  let e100 := Event.progress 100 s.report100.isOk
  match s.report100.err with
  | some err => ([e10, e40, e75, ec, e100], some err)
  | none => ([e10, e40, e75, ec, e100], none)

/-- The `failJob` attempt built by the `except` clauses (worker.py lines
171-186): `ValueError` maps to `USER_INPUT_INVALID` with the exception
text verbatim, everything else to `SERVICE_CAPACITY_TEMPORARY` with the
generic user-visible message. -/
def failEventOf (c : ExcClass) (msg : String) (rpcOk : Bool) : Event :=
  match c with
  | .valueError => .failJob "USER_INPUT_INVALID" msg rpcOk
  | .convexError => .failJob "SERVICE_CAPACITY_TEMPORARY" "Processing failed. Please retry." rpcOk
  | .otherError => .failJob "SERVICE_CAPACITY_TEMPORARY" "Processing failed. Please retry." rpcOk

/-- Full `_process_job`: run the `try` block; on an escaping exception,
classify it and attempt `failJob` through `_safe_fail` (worker.py lines
223-234), which swallows a failure of the report itself. The second
component is the exception propagating out of `_process_job`: `_safe_fail`
guarantees it is always `none`. -/
def processJob (s : JobScript) : List Event × Option (ExcClass × String) :=
  match mainPhase s with
  | (tr, none) => (tr, none)
  | (tr, some (c, msg)) => (tr ++ [failEventOf c msg s.failRpcOk], none)

/-- RPC attempts of a run. -/
def traceOf (s : JobScript) : List Event :=
  (processJob s).1

/-- First exception escaping the `try` block of a run. -/
def firstErrorOf (s : JobScript) : Option (ExcClass × String) :=
  (mainPhase s).2

/-- The queue observed a successful `completeJob`. -/
def hasCompleteOk (t : List Event) : Bool :=
  t.any fun e => match e with | .completeJob true => true | _ => false

/-- The queue observed a successful `failJob`. -/
def hasFailOk (t : List Event) : Bool :=
  t.any fun e => match e with | .failJob _ _ true => true | _ => false

/-- All steps up to and including the `completeJob` mutation returned. -/
def allMainOk (s : JobScript) : Bool :=
  s.report10.isOk && s.download.isOk && s.report40.isOk && s.runTool.isOk
    && s.report75.isOk && s.upload.isOk && s.complete.isOk

/-! ## Compression pipeline (tools.py `compress_pdf`)

Files are abstracted to their properties observable by the pipeline:
filesystem existence, byte size, page count, whether the first page
renders, whether `qpdf --check` exits 0 on them, and an abstract content
identifier (equal identifiers model bitwise-identical bytes). Each
external stage (mutool, qpdf, ghostscript, pdfsizeopt, zopfli, the pypdf
rewrite) is an oracle: `some f` when the stage's subprocess or library
call succeeded and produced file `f`, `none` when it failed or timed
out. Validation of a produced file is computed by the model itself,
exactly as `_validate_candidate` does. -/

/-- Abstract PDF file produced or consumed by the compression pipeline. -/
structure PFile where
  ex : Bool
  size : Nat
  pages : Nat
  renders : Bool
  qpdfOk : Bool
  content : Nat
deriving DecidableEq, Repr

/-- Embedding of `compress_pdf._validate_candidate` (tools.py lines
362-378): the file exists, is nonempty, passes `qpdf --check` when qpdf
is installed, has the expected page count and a renderable first page. -/
def validateCandidate (qpdfPresent : Bool) (expectedPages : Nat) (f : PFile) : Bool :=
  f.ex && f.size != 0 && (!qpdfPresent || f.qpdfOk) && f.pages == expectedPages && f.renders

/-- Entry of the pipeline's selection set, as built by `_add_candidate`:
the file, the scratch path it lives at (path id 0 is the input file) and
the method label used for reporting. -/
structure Candidate where
  path : Nat
  file : PFile
  method : String
deriving DecidableEq, Repr

/-- Embedding of `compress_pdf._add_candidate` (tools.py lines 380-392):
validate, and append to the selection set only on success. -/
def addCandidate (qpdfPresent : Bool) (expectedPages : Nat) (cands : List Candidate)
    (path : Nat) (f : PFile) (method : String) : List Candidate :=
  if validateCandidate qpdfPresent expectedPages f then
    cands ++ [⟨path, f, method⟩]
  else cands

/-- An attempted candidate: a stage finished with exit status 0 and its
output is offered to `_add_candidate`. -/
abbrev Attempt := Nat × PFile × String

/-- Fold a list of attempts through `_add_candidate`. -/
def collectCandidates (qpdfPresent : Bool) (expectedPages : Nat)
    (init : List Candidate) : List Attempt → List Candidate
  | [] => init
  | (p, f, m) :: rest =>
      collectCandidates qpdfPresent expectedPages
        (addCandidate qpdfPresent expectedPages init p f m) rest

/-- Oracle environment for one `compress_pdf` run: tool availability,
parsed configuration, the input file, and the outcome of every external
stage. `imageHeavy` is the detector verdict already conjoined with
`ZENPDF_COMPRESS_AUTO_IMAGE_HEAVY`; `expectedPages` is the
`_safe_page_count` result for the input. Scratch path ids: input 0,
mutool normalize 1, qpdf normalize 2, pypdf rewrite 3, qpdf optimize 4,
mutool optimize 5, early ghostscript 6, qpdf-after-gs 7, image-opt 8,
pdfsizeopt 9, ghostscript full/retry 10. -/
structure CompressEnv where
  qpdf : Bool
  mutool : Bool
  gs : Bool
  pdfsizeoptBin : Bool
  jbig2Bin : Bool
  enableImageOpt : Bool
  enablePdfsizeopt : Bool
  enableJbig2 : Bool
  useZopfli : Bool
  imageHeavy : Bool
  gsMinSizeMb : Int
  minSavingsBytes : Int
  threshold : ℚ
  expectedPages : Nat
  probePages : Nat
  timeoutSeconds : Int
  input : PFile
  mutoolNormRes : Option PFile
  qpdfNormRes : Option PFile
  pypdfRewriteRes : Option PFile
  qpdfOptRes : Option PFile
  mutoolOptRes : Option PFile
  gsEarlyRes : Option PFile
  qpdfAfterGsRes : Option PFile
  imageOptRes : Option PFile
  pdfsizeoptRes : Option PFile
  probeMs : Option Nat
  gsFullRes : Option PFile
  gsRetryRes : Option PFile
  detRes : Option PFile
  zopfliRes : Option PFile
deriving DecidableEq, Repr

/-- Attempts of the sequential stages, in source order (tools.py lines
554-712). Normalization tries mutool when installed; the qpdf fallback
runs only when mutool is absent (the code re-checks
`normalized_path == input_path`, which mutool changes even on failure),
and the pypdf rewrite only when neither produced a normalized file. Then
qpdf optimize, mutool optimize, and the early ghostscript branch for
image-heavy inputs at or above the size threshold, whose success also
triggers a qpdf deflate pass. -/
def seqAttempts (e : CompressEnv) : List Attempt :=
  (if e.mutool then
      match e.mutoolNormRes with
      | some f => [(1, f, "mutool")]
      | none => []
    else [])
  ++ (if !e.mutool && e.qpdf then
      match e.qpdfNormRes with
      | some f => [(2, f, "qpdf")]
      | none => []
    else [])
  ++ (if !e.mutool && (!e.qpdf || e.qpdfNormRes.isNone) then
      match e.pypdfRewriteRes with
      | some f => [(3, f, "pypdf")]
      | none => []
    else [])
  ++ (if e.qpdf then
      match e.qpdfOptRes with
      | some f => [(4, f, "qpdf")]
      | none => []
    else [])
  ++ (if e.mutool then
      match e.mutoolOptRes with
      | some f => [(5, f, "mutool")]
      | none => []
    else [])
  ++ (if e.imageHeavy && e.gs && e.gsMinSizeMb ≤ sizeMbOf e.input.size then
      match e.gsEarlyRes with
      | some f =>
          (6, f, "ghostscript") ::
            (if e.qpdf then
              match e.qpdfAfterGsRes with
              | some g => [(7, g, "qpdf_after_gs")]
              | none => []
            else [])
      | none => []
    else [])

/-- Embedding of `compress_pdf._current_best_savings` (tools.py lines
714-719): savings in bytes and as a fraction of the input size for the
smallest candidate so far (Python `min` keeps the first minimum). -/
def bestBySize : List Candidate → Option Candidate
  | [] => none
  | c :: rest =>
      (bestBySize rest).elim (some c)
        (fun b => if b.file.size < c.file.size then some b else some c)

/-- Candidates produced by the sequential stages, the original input
first when it validates (tools.py lines 546-547). -/
def seqCands (e : CompressEnv) : List Candidate :=
  collectCandidates e.qpdf e.expectedPages []
    ((0, e.input, "original") :: seqAttempts e)

/-- Embedding of `_should_run_heavy_steps` evaluated after the sequential
stages (tools.py lines 721-723, 880): heavy stages run while the current
best savings miss either threshold. -/
def shouldRunHeavyOf (e : CompressEnv) : Bool :=
  match bestBySize (seqCands e) with
  | none => (0 : Int) < e.minSavingsBytes || (0 : ℚ) < e.threshold
  | some b =>
      if e.input.size = 0 then (0 : Int) < e.minSavingsBytes || (0 : ℚ) < e.threshold
      else
        let savings : Nat := e.input.size - b.file.size
        decide ((savings : Int) < e.minSavingsBytes)
          || decide ((savings : ℚ) / (e.input.size : ℚ) < e.threshold)

/-- Attempts of the parallel heavy lanes, in the order their results are
merged after the join (tools.py lines 882-921): the qpdf image-opt lane,
the pdfsizeopt lane (skipped without its binaries or when savings already
suffice), and the ghostscript lane with its probe-extrapolation gate and
single `-dNEWPDF=false` retry. -/
def laneAttempts (e : CompressEnv) (shouldRun : Bool) : List Attempt :=
  (if e.enableImageOpt then
      if e.qpdf then
        match e.imageOptRes with
        | some f => [(8, f, "qpdf_optimize_images")]
        | none => []
      else []
    else [])
  ++ (if e.enablePdfsizeopt || e.enableJbig2 then
      if e.enableJbig2 && !e.jbig2Bin then []
      else if !e.pdfsizeoptBin then []
      else if !shouldRun then []
      else
        match e.pdfsizeoptRes with
        | some f => [(9, f, if e.enableJbig2 then "pdfsizeopt_jbig2" else "pdfsizeopt")]
        | none => []
    else [])
  ++ (if e.gs then
      if e.imageHeavy then []
      else if sizeMbOf e.input.size < e.gsMinSizeMb then []
      else if !shouldRun then []
      else
        match e.probeMs with
        | none => []
        | some ms =>
            let probeOk :=
              if 0 < e.probePages then
                decide (pyTrunc ((ms : ℚ) / (e.probePages : ℚ) * (e.expectedPages : ℚ))
                  ≤ e.timeoutSeconds * 1000)
              else true
            if !probeOk then []
            else
              match e.gsFullRes with
              | some f => [(10, f, "ghostscript")]
              | none =>
                  match e.gsRetryRes with
                  | some f => [(10, f, "ghostscript")]
                  | none => []
    else [])

/-- The full selection set of a run: sequential candidates, then the
heavy-lane results folded through `_add_candidate`. -/
def allCands (e : CompressEnv) : List Candidate :=
  collectCandidates e.qpdf e.expectedPages (seqCands e)
    (laneAttempts e (shouldRunHeavyOf e))

/-- Report status of a run. -/
inductive CStatus where
  | success
  | noChange
deriving DecidableEq, Repr

/-- Observable outcome of a `compress_pdf` run: the file materialised at
the output path, the reported status, the selection set, and the
reported method. -/
structure CompressOutcome where
  finalFile : PFile
  status : CStatus
  candidates : List Candidate
  method : String
deriving DecidableEq, Repr

/-- Status decision of step 6 (tools.py lines 934-939): `no_change` when
the best candidate's savings miss either the byte floor or the fractional
threshold. -/
def selectionStatus (e : CompressEnv) (best0 : Candidate) : CStatus :=
  let savingsB : Nat := e.input.size - best0.file.size
  let savingsQ : ℚ := if e.input.size = 0 then 0 else (savingsB : ℚ) / (e.input.size : ℚ)
  if (savingsB : Int) < e.minSavingsBytes || savingsQ < e.threshold then .noChange
  else .success

/-- Candidate materialised at the output path (tools.py line 940): on
`no_change` the choice switches to the candidate at the input path when
one exists, otherwise it stays the smallest candidate. -/
def chosenCandidate (e : CompressEnv) (best0 : Candidate) : Candidate :=
  if selectionStatus e best0 = .noChange then
    ((allCands e).find? (fun c => c.path == 0)).getD best0
  else best0

/-- Reported method (tools.py lines 929-932): `original` becomes
`passthrough`. -/
def methodOf (best0 : Candidate) : String :=
  if best0.method = "original" then "passthrough" else best0.method

/-- Deterministic-id pass (tools.py lines 952-973): when qpdf is
installed, re-emit the output through qpdf and replace it only when the
run succeeded and the result validates. -/
def afterDet (e : CompressEnv) (fin0 : PFile) : PFile :=
  if e.qpdf then
    match e.detRes with
    | some f => if validateCandidate e.qpdf e.expectedPages f then f else fin0
    | none => fin0
  else fin0

/-- Optional zopfli pass (tools.py lines 975-1004): adopt the zopfli
output only when it validates and its own savings meet both thresholds.
`none` models the `ZeroDivisionError` of the fraction check on a
zero-byte input (reachable only when the byte floor is not positive,
because `and` short-circuits). -/
def zopfliStep (e : CompressEnv) (fin1 : PFile) : Option PFile :=
  if e.useZopfli && e.qpdf then
    match e.zopfliRes with
    | some f =>
        if validateCandidate e.qpdf e.expectedPages f then
          if ((e.input.size - f.size : Nat) : Int) < e.minSavingsBytes then some fin1
          else if e.input.size = 0 then none
          else if e.threshold ≤ ((e.input.size - f.size : Nat) : ℚ) / (e.input.size : ℚ) then
            some f
          else some fin1
        else some fin1
    | none => some fin1
  else some fin1

/-- Embedding of the tail of `compress_pdf` (tools.py lines 923-1043):
select the smallest candidate, rename `original` to `passthrough`,
compute the savings threshold and the status, switch back to the original
candidate on `no_change`, materialise the chosen file at the output path,
then run the qpdf deterministic-id pass and the optional zopfli pass.
`none` models an escaping exception: the `ValueError` raised when no
candidates exist, or the `ZeroDivisionError` inside the zopfli pass. -/
def compressRun (e : CompressEnv) : Option CompressOutcome :=
  match bestBySize (allCands e) with
  | none => none
  | some best0 =>
      match zopfliStep e (afterDet e (chosenCandidate e best0).file) with
      | none => none
      | some fin => some ⟨fin, selectionStatus e best0, allCands e, methodOf best0⟩

/-! ## Safe web fetch (tools.py `web_to_pdf`, `_resolve_public_ip`,
`_is_public_ip`) -/

/-- IP address abstracted to the classification flags `ipaddress` exposes
and the version. Addresses handed back by the system resolver are
well-formed, so the `ValueError` branches of the string re-parses never
fire. -/
structure IpAddr where
  v4 : Bool
  priv : Bool
  loopback : Bool
  linkLocal : Bool
  multicast : Bool
  reserved : Bool
  unspecified : Bool
deriving DecidableEq, Repr

/-- Embedding of `_is_public_ip` (tools.py lines 1995-2008). -/
def isPublicIp (a : IpAddr) : Bool :=
  !(a.priv || a.loopback || a.linkLocal || a.multicast || a.reserved || a.unspecified)

/-- Embedding of `_resolve_public_ip` (tools.py lines 1967-1992). The
argument is the resolver outcome: `none` when `getaddrinfo` raised
`gaierror`, otherwise the list of resolved addresses in order. Keep the
public addresses; among them prefer the first IPv4, else take the first;
reject only when none is public. -/
def resolvePublicIp (resolved : Option (List IpAddr)) : Except String IpAddr :=
  match resolved with
  | none => .error "Unable to resolve host"
  | some infos =>
      match infos.filter isPublicIp with
      | [] => .error "URL host is not allowed"
      | p :: ps =>
          match (p :: ps).filter (fun a => a.v4) with
          | q :: _ => .ok q
          | [] => .ok p

/-- Selection rule as the spec words it: "Prefer IPv4 among public
addresses; otherwise pick the first public address", `none` when no
public address exists. -/
def specSelectIp (infos : List IpAddr) : Option IpAddr :=
  match (infos.filter isPublicIp).filter (fun a => a.v4) with
  | q :: _ => some q
  | [] => (infos.filter isPublicIp).head?

/-- Environment of one `web_to_pdf` connection attempt: the resolver
outcome for the hostname, whether the scheme is https, whether the pinned
TLS handshake raises `SSLError`, whether
`ZENPDF_WEB_ALLOW_HOSTNAME_FALLBACK=1`, and which of the resolved
addresses the operating system picks when the fallback request connects
by hostname (the fallback models `requests.get` on the original URL: the
source performs no pinning there, so the address is outside the
program's control). -/
structure WebEnv where
  resolved : Option (List IpAddr)
  schemeHttps : Bool
  sslFails : Bool
  fallbackEnabled : Bool
  osChoice : Nat
deriving DecidableEq, Repr

/-- Address the operating system connects to when the fallback request
of `web_to_pdf` (tools.py lines 1694-1697) is made by hostname with no
pinning: some address of the resolver's list, selected outside the
program's control (modelled by the `osChoice` index). -/
def fallbackAddr (w : WebEnv) : Except String IpAddr :=
  match (w.resolved.getD []).get? (w.osChoice % (w.resolved.getD []).length) with
  | some b => .ok b
  | none => .error "Unable to resolve host"

/-- Address used for the TCP connection of `web_to_pdf` (tools.py lines
1631-1697). The primary path connects to the literal IP returned by
`_resolve_public_ip`. On `SSLError` with the fallback gate open, the
hostname is re-validated through `_resolve_public_ip` and the request is
retried against the original URL, so the connection goes to whichever
resolved address the OS picks (`fallbackAddr`). -/
def webConnectAddr (w : WebEnv) : Except String IpAddr :=
  match resolvePublicIp w.resolved with
  | .error m => .error m
  | .ok a =>
      if !w.sslFails then .ok a
      else if !(w.schemeHttps && w.fallbackEnabled) then .error "SSL handshake failed"
      else
        match resolvePublicIp w.resolved with
        | .error m => .error m
        | .ok _ => fallbackAddr w

/-! ## Web response streaming (tools.py `web_to_pdf._fetch_html`) -/

/-- Cap on accepted web bodies, `MAX_WEB_BYTES = 2 * 1024 * 1024`
(tools.py line 1524). -/
def MAX_WEB_BYTES : Nat := 2 * 1024 * 1024

/-- Structural worker for `chunk64`: the first argument is fuel
(initialised to the list length, which bounds the number of chunks); an
exhausted fuel with bytes left cannot occur in `chunk64` and emits the
remainder as one chunk. -/
def chunkAux : Nat → List Nat → List (List Nat)
  | _, [] => []
  | 0, l => [l]
  | fuel + 1, b :: rest =>
      (b :: rest).take (64 * 1024) :: chunkAux fuel ((b :: rest).drop (64 * 1024))

/-- Split a byte stream into the 64 KiB chunks `iter_content` yields for
`chunk_size=64 * 1024` (tools.py line 1670). -/
def chunk64 (l : List Nat) : List (List Nat) :=
  chunkAux l.length l

/-- An HTTP response as `_fetch_html` consumes it: status code, body
bytes, and the declared encoding (`none` or the empty string fall back
to utf-8). -/
structure HttpResp where
  statusCode : Nat
  bodyBytes : List Nat
  encoding : Option String
deriving DecidableEq, Repr

/-- Errors escaping `_fetch_html`: the `ValueError`s it raises itself and
the `requests.HTTPError` of `raise_for_status`. -/
inductive FetchErr where
  | userError (msg : String)
  | httpError (status : Nat)
deriving DecidableEq, Repr

/-- Streaming loop of `_fetch_html` (tools.py lines 1670-1675): skip
empty chunks, accumulate, and raise `"Web response too large"` as soon as
the accumulated bytes exceed `MAX_WEB_BYTES`. -/
def fetchBody (acc : List Nat) : List (List Nat) → Except FetchErr (List Nat)
  | [] => .ok acc
  | c :: cs =>
      if c.isEmpty then fetchBody acc cs
      else
        let acc2 := acc ++ c
        if MAX_WEB_BYTES < acc2.length then .error (.userError "Web response too large")
        else fetchBody acc2 cs

/-- Embedding of `_fetch_html` (tools.py lines 1653-1677): reject every
3xx status with `"Redirects are not allowed"`, let `raise_for_status`
reject 4xx/5xx, then stream the body in 64 KiB chunks under the byte
cap and return it with the declared encoding (utf-8 when absent or
empty). -/
def fetchHtml (r : HttpResp) : Except FetchErr (List Nat × String) :=
  if 300 ≤ r.statusCode ∧ r.statusCode < 400 then
    .error (.userError "Redirects are not allowed")
  else if 400 ≤ r.statusCode ∧ r.statusCode < 600 then
    .error (.httpError r.statusCode)
  else
    match fetchBody [] (chunk64 r.bodyBytes) with
    | .error e => .error e
    | .ok b =>
        .ok (b, match r.encoding with
          | some s => if s.isEmpty then "utf-8" else s
          | none => "utf-8")

/-! ## Unlock (tools.py `unlock_pdf`) -/

/-- A PDF as `unlock_pdf` sees it: encryption flag, the set of passwords
`decrypt` accepts (nonzero return), the page count and the metadata the
decrypted reader exposes. -/
structure PdfDocM where
  encrypted : Bool
  accepted : List String
  pages : Nat
  metadata : List (String × String)
deriving DecidableEq, Repr

/-- Embedding of `unlock_pdf` (tools.py lines 1288-1316): when the input
is encrypted, `decrypt(password)` returning 0 raises the user error;
otherwise all pages and the metadata are rewritten to the output. The
result carries the written page count and metadata. -/
def unlockPdf (doc : PdfDocM) (password : String) : Except String (Nat × List (String × String)) :=
  if doc.encrypted && !(doc.accepted.contains password) then
    .error "Unable to unlock PDF"
  else .ok (doc.pages, doc.metadata)

/-! ## Concrete example data used in counterexamples and witnesses -/

/-- Job run in which every step succeeds except the final
`reportJobProgress(100)`, which raises a `ConvexError` (for example
because the lease lapsed while the job was finishing). -/
def c1Script : JobScript :=
  { report10 := .ok, download := .ok, report40 := .ok, runTool := .ok,
    report75 := .ok, upload := .ok, complete := .ok,
    report100 := .raises .convexError "lease expired", failRpcOk := true }

/-- A private IPv4 address (for example 10.0.0.5). -/
def ipPriv4 : IpAddr :=
  { v4 := true, priv := true, loopback := false, linkLocal := false,
    multicast := false, reserved := false, unspecified := false }

/-- A public IPv4 address (for example 93.184.216.34). -/
def ipPub4 : IpAddr :=
  { v4 := true, priv := false, loopback := false, linkLocal := false,
    multicast := false, reserved := false, unspecified := false }

/-- A public IPv6 address. -/
def ipPub6 : IpAddr :=
  { v4 := false, priv := false, loopback := false, linkLocal := false,
    multicast := false, reserved := false, unspecified := false }

/-- A 1 MB single-page input PDF (content id 0). -/
def exC2Input : PFile :=
  { ex := true, size := 1000000, pages := 1, renders := true, qpdfOk := true, content := 0 }

/-- The qpdf normalization output for `exC2Env`: valid, 999000 bytes. -/
def exC2Norm : PFile :=
  { ex := true, size := 999000, pages := 1, renders := true, qpdfOk := true, content := 1 }

/-- The qpdf optimize output for `exC2Env`: valid, 999500 bytes. -/
def exC2Opt : PFile :=
  { ex := true, size := 999500, pages := 1, renders := true, qpdfOk := true, content := 2 }

/-- The deterministic-id pass output for `exC2Env`: valid, 998000 bytes,
with bytes (content id 3) differing from the input's. -/
def exC2Det : PFile :=
  { ex := true, size := 998000, pages := 1, renders := true, qpdfOk := true, content := 3 }

/-- Compression run at default configuration with only qpdf installed:
qpdf saves 1000 bytes of 1 MB, far below the 200000-byte floor, so the
status is `no_change`; the deterministic-id pass then rewrites the
output. -/
def exC2Env : CompressEnv :=
  { qpdf := true, mutool := false, gs := false, pdfsizeoptBin := false, jbig2Bin := false,
    enableImageOpt := false, enablePdfsizeopt := false, enableJbig2 := false,
    useZopfli := false, imageHeavy := false, gsMinSizeMb := 5, minSavingsBytes := 200000,
    threshold := 8 / 100, expectedPages := 1, probePages := 1, timeoutSeconds := 124,
    input := exC2Input,
    mutoolNormRes := none, qpdfNormRes := some exC2Norm, pypdfRewriteRes := none,
    qpdfOptRes := some exC2Opt, mutoolOptRes := none, gsEarlyRes := none,
    qpdfAfterGsRes := none, imageOptRes := none, pdfsizeoptRes := none, probeMs := none,
    gsFullRes := none, gsRetryRes := none, detRes := some exC2Det, zopfliRes := none }

/-- The pypdf rewrite output for `exC2PlainEnv`: valid, 999900 bytes. -/
def exC2Rewrite : PFile :=
  { ex := true, size := 999900, pages := 1, renders := true, qpdfOk := false, content := 7 }

/-- The mutool normalization output for `exC6Env`: valid, 500000 bytes. -/
def exC6Norm : PFile :=
  { ex := true, size := 500000, pages := 1, renders := true, qpdfOk := false, content := 4 }

/-- A corrupt early-ghostscript output for `exC6Env`: wrong page count. -/
def exC6Bad : PFile :=
  { ex := true, size := 100, pages := 2, renders := true, qpdfOk := false, content := 5 }

/-- Compression run with no external tools at all and a working pypdf
rewrite: used to witness the amended final-output theorem on the
tool-free path. -/
def exC2PlainEnv : CompressEnv :=
  { qpdf := false, mutool := false, gs := false, pdfsizeoptBin := false, jbig2Bin := false,
    enableImageOpt := false, enablePdfsizeopt := false, enableJbig2 := false,
    useZopfli := false, imageHeavy := false, gsMinSizeMb := 5, minSavingsBytes := 200000,
    threshold := 8 / 100, expectedPages := 1, probePages := 1, timeoutSeconds := 124,
    input := exC2Input,
    mutoolNormRes := none, qpdfNormRes := none,
    pypdfRewriteRes := some exC2Rewrite,
    qpdfOptRes := none, mutoolOptRes := none, gsEarlyRes := none,
    qpdfAfterGsRes := none, imageOptRes := none, pdfsizeoptRes := none, probeMs := none,
    gsFullRes := none, gsRetryRes := none, detRes := none, zopfliRes := none }

/-- Compression run used to witness the candidate invariant: the mutool
normalization succeeds, producing one valid candidate besides the
original, while the mutool optimize stage emits a corrupt output (page
count 2 instead of 1) that must be dropped. -/
def exC6Env : CompressEnv :=
  { qpdf := false, mutool := true, gs := false, pdfsizeoptBin := false, jbig2Bin := false,
    enableImageOpt := false, enablePdfsizeopt := false, enableJbig2 := false,
    useZopfli := false, imageHeavy := false, gsMinSizeMb := 5, minSavingsBytes := 200000,
    threshold := 8 / 100, expectedPages := 1, probePages := 1, timeoutSeconds := 124,
    input := exC2Input,
    mutoolNormRes := some exC6Norm,
    qpdfNormRes := none, pypdfRewriteRes := none,
    qpdfOptRes := none,
    mutoolOptRes := some exC6Bad,
    gsEarlyRes := none,
    qpdfAfterGsRes := none, imageOptRes := none, pdfsizeoptRes := none, probeMs := none,
    gsFullRes := none, gsRetryRes := none, detRes := none, zopfliRes := none }

/-- Default timeout configuration for a 1-byte, 1-page document:
override 0, base 120 s, 3 s/MB, 1.5 s/page, ceiling 900 s, probe ceiling
30 s. -/
def exC8Env : CompressTimeoutEnv :=
  { override := 0, base := 120, perMb := 3, perPage := 3 / 2, maxT := 900,
    probeMax := 30, sizeBytes := 1, pages := 1 }

/-- Job run in which the tool raises a `ValueError` and the `failJob`
mutation itself fails. -/
def c5Script : JobScript :=
  { report10 := .ok, download := .ok, report40 := .ok,
    runTool := .raises .valueError "Watermark text is required",
    report75 := .ok, upload := .ok, complete := .ok, report100 := .ok,
    failRpcOk := false }

/-! # Theorems -/

/-! ## Worker loop helper lemmas -/

theorem hasCompleteOk_append (a b : List Event) :
    hasCompleteOk (a ++ b) = (hasCompleteOk a || hasCompleteOk b) := by
  simp [hasCompleteOk]

theorem hasFailOk_append (a b : List Event) :
    hasFailOk (a ++ b) = (hasFailOk a || hasFailOk b) := by
  simp [hasFailOk]

theorem hasCompleteOk_failEvent (c : ExcClass) (m : String) (b : Bool) :
    hasCompleteOk [failEventOf c m b] = false := by
  cases c <;> rfl

theorem hasFailOk_failEvent (c : ExcClass) (m : String) (b : Bool) :
    hasFailOk [failEventOf c m b] = b := by
  cases c <;> cases b <;> rfl

theorem mainPhase_complete (s : JobScript) :
    hasCompleteOk (mainPhase s).1 = allMainOk s := by
  obtain ⟨r10, dl, r40, rt, r75, up, cp, r100, fok⟩ := s
  cases r10 <;> cases dl <;> cases r40 <;> cases rt <;> cases r75 <;> cases up
    <;> cases cp <;> cases r100 <;> rfl

theorem mainPhase_noFail (s : JobScript) :
    hasFailOk (mainPhase s).1 = false := by
  obtain ⟨r10, dl, r40, rt, r75, up, cp, r100, fok⟩ := s
  cases r10 <;> cases dl <;> cases r40 <;> cases rt <;> cases r75 <;> cases up
    <;> cases cp <;> cases r100 <;> rfl

theorem mainPhase_err_isNone (s : JobScript) :
    (mainPhase s).2.isNone = (allMainOk s && s.report100.isOk) := by
  obtain ⟨r10, dl, r40, rt, r75, up, cp, r100, fok⟩ := s
  cases r10 <;> cases dl <;> cases r40 <;> cases rt <;> cases r75 <;> cases up
    <;> cases cp <;> cases r100 <;> rfl

theorem traceOf_structure (s : JobScript) :
    traceOf s = (mainPhase s).1 ++
      (match (mainPhase s).2 with
        | none => []
        | some p => [failEventOf p.1 p.2 s.failRpcOk]) := by
  unfold traceOf processJob
  rcases hm : mainPhase s with ⟨tr, e⟩
  rcases e with _ | ⟨c, m⟩ <;> simp

theorem processJob_snd_none (s : JobScript) : (processJob s).2 = none := by
  unfold processJob
  rcases hm : mainPhase s with ⟨tr, e⟩
  rcases e with _ | ⟨c, m⟩ <;> rfl

theorem traceOf_getLast_fail (s : JobScript) (c : ExcClass) (m : String)
    (h : firstErrorOf s = some (c, m)) :
    (traceOf s).getLast? = some (failEventOf c m s.failRpcOk) := by
  rw [traceOf_structure, show (mainPhase s).2 = some (c, m) from h]
  simp

/-! ## Claim C1 -/

/-- C1 counterexample: when every step of `_process_job` succeeds except
the final `reportJobProgress(100)` call, the queue observes both a
successful `completeJob` and a successful `failJob` — refuting the claim
that at most one terminal RPC is issued and that a failure raised after
`completeJob` returns leads to no `failJob`. -/
theorem c1_counterexample :
    hasCompleteOk (traceOf c1Script) = true ∧
    hasFailOk (traceOf c1Script) = true ∧
    traceOf c1Script =
      [.progress 10 true, .progress 40 true, .progress 75 true, .completeJob true,
        .progress 100 false,
        .failJob "SERVICE_CAPACITY_TEMPORARY" "Processing failed. Please retry." true] :=
  ⟨rfl, rfl, rfl⟩

/-- C1 (amended): the queue observes a successful `completeJob` exactly
when every step up to and including the `completeJob` mutation succeeds,
and a successful `failJob` exactly when some step of the job raised and
the failure report went through; consequently both terminal RPCs are
observed precisely when the only failing step is the progress-100 report
issued after `completeJob` returned — in every other run the terminal
RPCs are mutually exclusive. -/
theorem c1_exactly_one_terminal (s : JobScript) :
    hasCompleteOk (traceOf s) = allMainOk s
    ∧ hasFailOk (traceOf s) = (!(allMainOk s && s.report100.isOk) && s.failRpcOk)
    ∧ (hasCompleteOk (traceOf s) && hasFailOk (traceOf s))
        = (allMainOk s && !s.report100.isOk && s.failRpcOk) := by
  have h1 : hasCompleteOk (traceOf s) = allMainOk s := by
    rw [traceOf_structure]
    rcases hm : (mainPhase s).2 with _ | ⟨c, m⟩
    · simpa using mainPhase_complete s
    · rw [hasCompleteOk_append]
      simp [hasCompleteOk_failEvent, mainPhase_complete s]
  have h2 : hasFailOk (traceOf s) = (!(allMainOk s && s.report100.isOk) && s.failRpcOk) := by
    rw [traceOf_structure]
    have hn := mainPhase_err_isNone s
    rcases hm : (mainPhase s).2 with _ | ⟨c, m⟩
    · rw [hm] at hn
      rw [List.append_nil, mainPhase_noFail s, ← hn]
      simp
    · rw [hm] at hn
      rw [hasFailOk_append, mainPhase_noFail s, hasFailOk_failEvent, ← hn]
      simp
  refine ⟨h1, h2, ?_⟩
  rw [h1, h2]
  exact (by decide : ∀ a b c : Bool, (a && (!(a && b) && c)) = (a && !b && c))
    (allMainOk s) s.report100.isOk s.failRpcOk

/-! ## Claim C5 -/

/-- C5: every `ValueError` escaping a job is reported through `failJob`
with code `USER_INPUT_INVALID` and the exception text verbatim; every
other exception (`ConvexError` or otherwise) is reported with code
`SERVICE_CAPACITY_TEMPORARY` and the generic message, and a failure of
the `failJob` report itself is swallowed, so no exception ever propagates
out of `_process_job`. -/
theorem c5_error_classification (s : JobScript) (m : String) :
    (firstErrorOf s = some (.valueError, m) →
      (traceOf s).getLast? = some (.failJob "USER_INPUT_INVALID" m s.failRpcOk))
    ∧ (firstErrorOf s = some (.convexError, m) →
      (traceOf s).getLast? = some (.failJob "SERVICE_CAPACITY_TEMPORARY"
        "Processing failed. Please retry." s.failRpcOk))
    ∧ (firstErrorOf s = some (.otherError, m) →
      (traceOf s).getLast? = some (.failJob "SERVICE_CAPACITY_TEMPORARY"
        "Processing failed. Please retry." s.failRpcOk))
    ∧ (processJob s).2 = none := by
  refine ⟨fun h => ?_, fun h => ?_, fun h => ?_, processJob_snd_none s⟩
  · simpa [failEventOf] using traceOf_getLast_fail s .valueError m h
  · simpa [failEventOf] using traceOf_getLast_fail s .convexError m h
  · simpa [failEventOf] using traceOf_getLast_fail s .otherError m h

/-- C5 witness: a concrete run whose tool step raises
`ValueError("Watermark text is required")` and whose failure report
itself fails; the theorem yields the exact `failJob` attempt and the
absence of a propagating exception. -/
theorem c5_error_classification_witness :
    firstErrorOf c5Script = some (.valueError, "Watermark text is required")
    ∧ (traceOf c5Script).getLast? =
        some (.failJob "USER_INPUT_INVALID" "Watermark text is required" false)
    ∧ (processJob c5Script).2 = none :=
  ⟨rfl,
    (c5_error_classification c5Script "Watermark text is required").1 rfl,
    (c5_error_classification c5Script "Watermark text is required").2.2.2⟩

/-! ## Claim C7 -/

theorem parseRangeToken_eq_spec (total : Int) (part : List Char) :
    parseRangeToken total part = specRangeToken total part := by
  unfold parseRangeToken specRangeToken
  rcases h : pyStrip part with _ | ⟨c, cs⟩
  · rfl
  · simp [h]

theorem parseRangeToken_bounds (total : Int) (part : List Char) (s e : Int)
    (h : parseRangeToken total part = some (s, e)) : 1 ≤ s ∧ e ≤ total := by
  simp only [parseRangeToken] at h
  split at h
  · simp at h
  · split at h
    · next a b _ _ =>
        split at h
        · simp only [Option.some.injEq, Prod.mk.injEq] at h
          obtain ⟨hs, he⟩ := h
          exact ⟨hs ▸ le_max_left 1 a, he ▸ min_le_left total b⟩
        · simp at h
    · simp at h

theorem intRange_mem (s e p : Int) (h : p ∈ intRange s e) : s ≤ p ∧ p ≤ e := by
  unfold intRange at h
  obtain ⟨i, hi, rfl⟩ := List.mem_map.mp h
  rw [List.mem_range, Int.lt_toNat] at hi
  omega

/-- C7: for every range string and every `totalPages ≥ 1`, page parsing
behaves exactly as the spec describes — split on commas, ignore
whitespace around tokens, silently drop non-numeric tokens, clamp each
range to `start := max(1, A)` and `end := min(totalPages, B)`, emit only
when `start ≤ end`, and expand in document order with duplicates — and in
particular `"1,3-5,7"` against a 4-page document yields `[1, 3, 4]`. -/
theorem c7_page_range_parsing (value : List Char) (total : Int) (_h : 1 ≤ total) :
    parsePageList value total = specPageList value total
    ∧ parsePageList ("1,3-5,7".toList) 4 = [1, 3, 4] := by
  constructor
  · unfold parsePageList specPageList parseRanges
    have htok : parseRangeToken total = specRangeToken total :=
      funext (parseRangeToken_eq_spec total)
    rw [← htok]
    apply List.filter_eq_self.mpr
    intro p hp
    simp only [List.mem_flatten, List.mem_map] at hp
    obtain ⟨l, ⟨r, hr, rfl⟩, hpl⟩ := hp
    obtain ⟨hs, he⟩ := intRange_mem r.1 r.2 p hpl
    obtain ⟨tok, _htokmem, hsome⟩ := List.mem_filterMap.mp hr
    obtain ⟨h1, h2⟩ := parseRangeToken_bounds total tok r.1 r.2 (by simpa using hsome)
    simp only [Bool.and_eq_true, decide_eq_true_eq]
    omega
  · rfl

/-- C7 witness: the theorem applied to the range string `"1,3-5,7"` and a
4-page document. -/
theorem c7_page_range_parsing_witness :
    parsePageList ("1,3-5,7".toList) 4 = specPageList ("1,3-5,7".toList) 4
    ∧ parsePageList ("1,3-5,7".toList) 4 = [1, 3, 4] :=
  ⟨(c7_page_range_parsing ("1,3-5,7".toList) 4 (by norm_num)).1,
    (c7_page_range_parsing ("1,3-5,7".toList) 4 (by norm_num)).2⟩

/-! ## Claim C8 -/

theorem pyTrunc_intCast (n : Int) : pyTrunc (n : ℚ) = n := by
  unfold pyTrunc
  split <;> simp

theorem pyTrunc_mono {x y : ℚ} (h : x ≤ y) : pyTrunc x ≤ pyTrunc y := by
  unfold pyTrunc
  split <;> split
  · exact Int.ceil_le_ceil h
  · next hx hy =>
      have h1 : ⌈x⌉ ≤ (0 : ℤ) := Int.ceil_le.mpr (by exact_mod_cast le_of_lt hx)
      have h2 : (0 : ℤ) ≤ ⌊y⌋ := Int.floor_nonneg.mpr (le_of_not_lt hy)
      omega
  · next hx hy => exact absurd (lt_of_le_of_lt h hy) hx
  · exact Int.floor_le_floor h

theorem pyTrunc_min_intCast (m : Int) (x : ℚ) :
    pyTrunc (min (m : ℚ) x) = min m (pyTrunc x) := by
  rcases le_total (m : ℚ) x with hmx | hxm
  · rw [min_eq_left hmx, pyTrunc_intCast, min_eq_left]
    have := pyTrunc_mono hmx
    rwa [pyTrunc_intCast] at this
  · rw [min_eq_right hxm, min_eq_right]
    have := pyTrunc_mono hxm
    rwa [pyTrunc_intCast] at this

theorem pyTrunc_max_intCast (m : Int) (x : ℚ) :
    pyTrunc (max (m : ℚ) x) = max m (pyTrunc x) := by
  rcases le_total (m : ℚ) x with hmx | hxm
  · rw [max_eq_right hmx, max_eq_right]
    have := pyTrunc_mono hmx
    rwa [pyTrunc_intCast] at this
  · rw [max_eq_left hxm, pyTrunc_intCast, max_eq_left]
    have := pyTrunc_mono hxm
    rwa [pyTrunc_intCast] at this

/-- C8 counterexample: at the default configuration for a 1-byte, 1-page
document the code computes `min(900, int(120 + 3 + 1.5)) = 124`, while
the claim's truncation-free formula yields `124.5`; the two differ, so
the per-subprocess timeout is not `min(max, base + sizeMb*perMb +
pages*perPage)` as claimed. -/
theorem c8_timeout_counterexample :
    timeoutSecondsOf exC8Env = 124 ∧ claimTimeoutQ exC8Env = 249 / 2
    ∧ ((timeoutSecondsOf exC8Env : ℚ) ≠ claimTimeoutQ exC8Env) := by
  have hceil : ⌈((1 : ℕ) : ℚ) / (1024 * 1024)⌉ = (1 : ℤ) := by
    rw [Int.ceil_eq_iff]
    norm_num
  have hfl : ⌊(249 : ℚ) / 2⌋ = (124 : ℤ) := by
    rw [Int.floor_eq_iff]
    norm_num
  have h1 : timeoutSecondsOf exC8Env = 124 := by
    simp only [timeoutSecondsOf, exC8Env, sizeMbOf, pyTrunc, hceil]
    norm_num [hfl]
  have h2 : claimTimeoutQ exC8Env = 249 / 2 := by
    simp only [claimTimeoutQ, exC8Env, sizeMbOf, hceil]
    norm_num
  refine ⟨h1, h2, ?_⟩
  rw [h1, h2]
  norm_num

/-- C8 (amended): the per-subprocess timeout equals the claim's formula
`min(max, base + sizeMb*perMb + pages*perPage)` (or the positive
override) with Python `int` truncation applied to it, and the probe
timeout equals `min(probeMax, max(10, 0.25*timeout))` with the same
truncation applied; `sizeMb = max(1, ceil(sizeBytes / 1 MiB))` as
claimed. -/
theorem c8_timeout_formula (e : CompressTimeoutEnv) :
    timeoutSecondsOf e = pyTrunc (claimTimeoutQ e)
    ∧ probeTimeoutOf e = pyTrunc (claimProbeQ e)
    ∧ sizeMbOf e.sizeBytes = max 1 ⌈(e.sizeBytes : ℚ) / (1024 * 1024)⌉ := by
  refine ⟨?_, ?_, rfl⟩
  · unfold timeoutSecondsOf claimTimeoutQ
    split
    · rw [pyTrunc_intCast]
    · rw [pyTrunc_min_intCast]
  · unfold probeTimeoutOf claimProbeQ
    have h10 : (10 : ℚ) = ((10 : Int) : ℚ) := by norm_num
    rw [h10, pyTrunc_min_intCast, pyTrunc_max_intCast]

/-! ## Claim C9 -/

/-- C9: `unlock_pdf` raises `"Unable to unlock PDF"` exactly when the
input is encrypted and the supplied password fails to decrypt it; on
every unencrypted input it succeeds regardless of the password, writing
an output with the input's page count and metadata; and no other outcome
exists. -/
theorem c9_unlock (doc : PdfDocM) (pw : String) :
    (unlockPdf doc pw = .error "Unable to unlock PDF" ↔
      doc.encrypted = true ∧ doc.accepted.contains pw = false)
    ∧ (doc.encrypted = false → unlockPdf doc pw = .ok (doc.pages, doc.metadata))
    ∧ (unlockPdf doc pw = .error "Unable to unlock PDF" ∨
        unlockPdf doc pw = .ok (doc.pages, doc.metadata)) := by
  unfold unlockPdf
  cases he : doc.encrypted <;> cases hc : doc.accepted.contains pw <;> simp [he, hc]

/-- C9 witness: a concrete encrypted document rejects a wrong password
with the user error, and a concrete unencrypted document unlocks under an
arbitrary password, preserving pages and metadata. -/
theorem c9_unlock_witness :
    unlockPdf ⟨true, ["pw"], 3, [("title", "Z")]⟩ "bad" = .error "Unable to unlock PDF"
    ∧ unlockPdf ⟨false, [], 3, [("title", "Z")]⟩ "anything" = .ok (3, [("title", "Z")]) :=
  ⟨(c9_unlock ⟨true, ["pw"], 3, [("title", "Z")]⟩ "bad").1.mpr (by decide),
    (c9_unlock ⟨false, [], 3, [("title", "Z")]⟩ "anything").2.1 rfl⟩

/-! ## Claim C10 -/

/-- C10 counterexample: the config angle `180.7` (a float) is not one of
90, 180 or 270, yet the worker does not replace it by 90: `int(180.7)`
truncates to 180, which passes the allow-list, and rotation proceeds with
angle 180. -/
theorem c10_rotate_counterexample :
    resolveRotateAngle (.pyFloat (1807 / 10)) = 180
    ∧ ¬((1807 : ℚ) / 10 = 90 ∨ (1807 : ℚ) / 10 = 180 ∨ (1807 : ℚ) / 10 = 270) := by
  have hfl : ⌊(1807 : ℚ) / 10⌋ = (180 : ℤ) := by
    rw [Int.floor_eq_iff]
    norm_num
  have h1 : pyIntOfVal (.pyFloat (1807 / 10)) = some 180 := by
    simp only [pyIntOfVal, pyTrunc]
    rw [if_neg (by norm_num), hfl]
  constructor
  · simp [resolveRotateAngle, parseInt, h1]
  · norm_num

/-- C10 (amended): the rotate angle is always resolved to 90, 180 or 270,
so an invalid angle never fails the job; a config value `int()` cannot
parse (non-numeric, missing, list, dict) resolves to 90; a value parsing
to an integer outside the allow-list resolves to 90; but a numeric value
is truncated by `int()` first, so for example 180.7 proceeds as 180
rather than being replaced by 90. -/
theorem c10_rotate_angle (v : PyVal) :
    (resolveRotateAngle v = 90 ∨ resolveRotateAngle v = 180 ∨ resolveRotateAngle v = 270)
    ∧ (pyIntOfVal v = none → resolveRotateAngle v = 90)
    ∧ (∀ n : Int, pyIntOfVal v = some n → (n = 90 ∨ n = 180 ∨ n = 270) →
        resolveRotateAngle v = n)
    ∧ (∀ n : Int, pyIntOfVal v = some n → ¬(n = 90 ∨ n = 180 ∨ n = 270) →
        resolveRotateAngle v = 90) := by
  rcases hv : pyIntOfVal v with _ | n
  · refine ⟨Or.inl ?_, fun _ => ?_, fun k hk _ => absurd hk (by simp), fun k hk _ => ?_⟩
    · simp [resolveRotateAngle, parseInt, hv]
    · simp [resolveRotateAngle, parseInt, hv]
    · simp [resolveRotateAngle, parseInt, hv]
  · by_cases hn : n = 90 ∨ n = 180 ∨ n = 270
    · have hval : resolveRotateAngle v = n := by
        simp [resolveRotateAngle, parseInt, hv, hn]
      refine ⟨?_, fun h0 => absurd h0 (by simp), fun k hk _ => ?_, fun k hk hkn => ?_⟩
      · rw [hval]
        exact hn
      · injection hk with h
        rw [hval, h]
      · injection hk with h
        exact absurd (h ▸ hn) hkn
    · have hval : resolveRotateAngle v = 90 := by
        simp [resolveRotateAngle, parseInt, hv, hn]
      refine ⟨Or.inl hval, fun h0 => absurd h0 (by simp), fun k hk hk2 => ?_,
        fun _ _ _ => hval⟩
      injection hk with h
      subst h
      exact absurd hk2 hn

/-- C10 witness: the theorem applied to a non-numeric string angle, a
missing angle, the integer 45 and the valid integer 270. -/
theorem c10_rotate_angle_witness :
    resolveRotateAngle (.pyStr ("abc".toList)) = 90
    ∧ resolveRotateAngle .pyNone = 90
    ∧ resolveRotateAngle (.pyInt 45) = 90
    ∧ resolveRotateAngle (.pyInt 270) = 270 :=
  ⟨(c10_rotate_angle (.pyStr ("abc".toList))).2.1 (by decide),
    (c10_rotate_angle .pyNone).2.1 rfl,
    (c10_rotate_angle (.pyInt 45)).2.2.2 45 rfl (by decide),
    (c10_rotate_angle (.pyInt 270)).2.2.1 270 rfl (by decide)⟩

/-! ## Claim C3 -/

theorem resolvePublicIp_some_eq (infos : List IpAddr) :
    resolvePublicIp (some infos) =
      (match infos.filter isPublicIp with
        | [] => .error "URL host is not allowed"
        | p :: ps =>
            match (p :: ps).filter (fun x => x.v4) with
            | q :: _ => .ok q
            | [] => .ok p) := rfl

theorem resolvePublicIp_cons_eq (p : IpAddr) (ps infos : List IpAddr)
    (hf : infos.filter isPublicIp = p :: ps) :
    resolvePublicIp (some infos) =
      (match (p :: ps).filter (fun x => x.v4) with
        | q :: _ => .ok q
        | [] => .ok p) := by
  rw [resolvePublicIp_some_eq, hf]

theorem resolvePublicIp_ok_elim (infos : List IpAddr) (a : IpAddr)
    (h : resolvePublicIp (some infos) = .ok a) :
    isPublicIp a = true ∧ a ∈ infos ∧ infos.filter isPublicIp ≠ [] := by
  rcases hf : infos.filter isPublicIp with _ | ⟨p, ps⟩
  · rw [resolvePublicIp_some_eq, hf] at h
    simp at h
  · rw [resolvePublicIp_cons_eq p ps infos hf] at h
    have hpmem : p ∈ infos.filter isPublicIp := by
      rw [hf]
      exact List.mem_cons_self p ps
    rcases hv : (p :: ps).filter (fun x => x.v4) with _ | ⟨q, qs⟩
    · rw [hv] at h
      simp only [Except.ok.injEq] at h
      subst h
      exact ⟨List.of_mem_filter hpmem, List.mem_of_mem_filter hpmem, by simp⟩
    · rw [hv] at h
      simp only [Except.ok.injEq] at h
      subst h
      have hqmem : q ∈ (p :: ps).filter (fun x => x.v4) := by
        rw [hv]
        exact List.mem_cons_self q qs
      have hq2 : q ∈ infos.filter isPublicIp := by
        rw [hf]
        exact List.mem_of_mem_filter hqmem
      exact ⟨List.of_mem_filter hq2, List.mem_of_mem_filter hq2, by simp⟩

theorem resolvePublicIp_spec_agree (infos : List IpAddr) (a : IpAddr) :
    resolvePublicIp (some infos) = .ok a ↔ specSelectIp infos = some a := by
  rcases hf : infos.filter isPublicIp with _ | ⟨p, ps⟩
  · rw [resolvePublicIp_some_eq, hf]
    unfold specSelectIp
    rw [hf]
    simp
  · rw [resolvePublicIp_cons_eq p ps infos hf]
    unfold specSelectIp
    rw [hf]
    rcases hv : (p :: ps).filter (fun x => x.v4) with _ | ⟨q, qs⟩ <;>
      rw [hv] <;> simp

/-- C3 counterexample: a hostname resolving to a private address followed
by a public one is not rejected — the fetch proceeds using the public
address — and on the TLS hostname-fallback path the unpinned connection
can use the private address of a mixed public/private host, refuting both
the "rejects whenever any address is non-public" part and the "holds even
on the fallback path" part of the claim. -/
theorem c3_public_ip_counterexample :
    resolvePublicIp (some [ipPriv4, ipPub4]) = .ok ipPub4
    ∧ isPublicIp ipPriv4 = false
    ∧ webConnectAddr ⟨some [ipPub4, ipPriv4], true, true, true, 1⟩ = .ok ipPriv4
    ∧ isPublicIp ipPriv4 = false :=
  ⟨rfl, rfl, rfl, rfl⟩

/-- C3 (amended): name resolution rejects with the user error exactly
when no resolved address is public; a successful resolution returns a
public member of the resolved set, chosen per the spec's rule (first
public IPv4, else first public address); the pinned primary path always
connects to that public address; the fallback path only guarantees the
connection address is one of the resolved addresses of a host that has at
least one public address. -/
theorem c3_public_ip_resolution (infos : List IpAddr) (w : WebEnv) (a : IpAddr) :
    (infos.filter isPublicIp = [] →
      resolvePublicIp (some infos) = .error "URL host is not allowed")
    ∧ (resolvePublicIp (some infos) = .ok a → isPublicIp a = true ∧ a ∈ infos)
    ∧ (resolvePublicIp (some infos) = .ok a ↔ specSelectIp infos = some a)
    ∧ (w.sslFails = false → webConnectAddr w = .ok a → isPublicIp a = true)
    ∧ (w.resolved = some infos → webConnectAddr w = .ok a →
        a ∈ infos ∧ infos.filter isPublicIp ≠ []) := by
  refine ⟨fun hf => ?_, fun h => ⟨(resolvePublicIp_ok_elim infos a h).1,
    (resolvePublicIp_ok_elim infos a h).2.1⟩, resolvePublicIp_spec_agree infos a,
    fun hssl h => ?_, fun hres h => ?_⟩
  · rw [resolvePublicIp_some_eq, hf]
  · unfold webConnectAddr at h
    rcases hr : resolvePublicIp w.resolved with m | a0
    · rw [hr] at h
      simp at h
    · rw [hr] at h
      simp only [hssl, Bool.not_false, if_true, Except.ok.injEq] at h
      subst h
      rcases hw : w.resolved with _ | infos0
      · rw [hw] at hr
        simp [resolvePublicIp] at hr
      · rw [hw] at hr
        exact (resolvePublicIp_ok_elim infos0 a0 hr).1
  · unfold webConnectAddr at h
    rw [hres] at h
    rcases hr : resolvePublicIp (some infos) with m | a0
    · rw [hr] at h
      simp at h
    · rw [hr] at h
      have helim := resolvePublicIp_ok_elim infos a0 hr
      by_cases hssl : w.sslFails = true
      · by_cases hfb : (w.schemeHttps && w.fallbackEnabled) = true
        · simp only [hssl, hfb, Bool.not_true, Bool.false_eq_true, if_false] at h
          unfold fallbackAddr at h
          rw [hres] at h
          simp only [Option.getD_some] at h
          rcases hg : infos.get? (w.osChoice % infos.length) with _ | b
          · rw [hg] at h
            simp at h
          · rw [hg] at h
            simp only [Except.ok.injEq] at h
            subst h
            exact ⟨List.get?_mem hg, helim.2.2⟩
        · rw [Bool.not_eq_true] at hfb
          simp only [hssl, hfb, Bool.not_true, Bool.not_false, Bool.false_eq_true,
            if_false, if_true] at h
          simp at h
      · rw [Bool.not_eq_true] at hssl
        simp only [hssl, Bool.not_false, if_true, Except.ok.injEq] at h
        subst h
        exact ⟨helim.2.1, helim.2.2⟩

/-- C3 witness: a host resolving only to a private address is rejected
with the user error; a host resolving to a public IPv6, a private IPv4
and a public IPv4 resolves to the public IPv4, which is public, a member
of the resolved set, and the spec's preferred choice. -/
theorem c3_public_ip_resolution_witness :
    resolvePublicIp (some [ipPriv4]) = .error "URL host is not allowed"
    ∧ (isPublicIp ipPub4 = true ∧ ipPub4 ∈ [ipPub6, ipPriv4, ipPub4])
    ∧ specSelectIp [ipPub6, ipPriv4, ipPub4] = some ipPub4 :=
  ⟨(c3_public_ip_resolution [ipPriv4] ⟨none, false, false, false, 0⟩ ipPriv4).1
      (by decide),
    (c3_public_ip_resolution [ipPub6, ipPriv4, ipPub4]
      ⟨none, false, false, false, 0⟩ ipPub4).2.1 rfl,
    (c3_public_ip_resolution [ipPub6, ipPriv4, ipPub4]
      ⟨none, false, false, false, 0⟩ ipPub4).2.2.1.mp rfl⟩

/-! ## Claim C4 -/

theorem chunkAux_flatten (fuel : Nat) : ∀ l : List Nat, (chunkAux fuel l).flatten = l := by
  induction fuel with
  | zero =>
      intro l
      cases l <;> simp [chunkAux]
  | succ fuel ih =>
      intro l
      cases l with
      | nil => simp [chunkAux]
      | cons b rest =>
          rw [chunkAux]
          simp only [List.flatten_cons]
          rw [ih, List.take_append_drop]

theorem chunk64_flatten (l : List Nat) : (chunk64 l).flatten = l :=
  chunkAux_flatten l.length l

theorem fetchBody_ok (cs : List (List Nat)) :
    ∀ (acc l : List Nat), fetchBody acc cs = .ok l → acc.length ≤ MAX_WEB_BYTES →
      l = acc ++ cs.flatten ∧ l.length ≤ MAX_WEB_BYTES := by
  induction cs with
  | nil =>
      intro acc l h hacc
      simp only [fetchBody, Except.ok.injEq] at h
      subst h
      simpa using hacc
  | cons c cs ih =>
      intro acc l h hacc
      rw [fetchBody] at h
      by_cases hc : c.isEmpty
      · rw [if_pos hc] at h
        obtain ⟨h1, h2⟩ := ih acc l h hacc
        have hce : c = [] := List.isEmpty_iff.mp hc
        subst hce
        exact ⟨by simpa using h1, h2⟩
      · rw [if_neg hc] at h
        by_cases hm : MAX_WEB_BYTES < (acc ++ c).length
        · rw [if_pos hm] at h
          simp at h
        · rw [if_neg hm] at h
          obtain ⟨h1, h2⟩ := ih (acc ++ c) l h (le_of_not_lt hm)
          exact ⟨by rw [h1]; simp, h2⟩

theorem fetchBody_overflow (cs : List (List Nat)) :
    ∀ acc : List Nat, acc.length ≤ MAX_WEB_BYTES →
      MAX_WEB_BYTES < acc.length + cs.flatten.length →
      fetchBody acc cs = .error (.userError "Web response too large") := by
  induction cs with
  | nil =>
      intro acc hacc hov
      simp at hov
      omega
  | cons c cs ih =>
      intro acc hacc hov
      rw [fetchBody]
      by_cases hc : c.isEmpty
      · rw [if_pos hc]
        have hce : c = [] := List.isEmpty_iff.mp hc
        subst hce
        exact ih acc hacc (by simpa using hov)
      · rw [if_neg hc]
        by_cases hm : MAX_WEB_BYTES < (acc ++ c).length
        · rw [if_pos hm]
        · rw [if_neg hm]
          apply ih (acc ++ c) (le_of_not_lt hm)
          simp only [List.length_append, List.flatten_cons] at hov ⊢
          omega

/-- C4: every 3xx response is rejected with the user error
`"Redirects are not allowed"`; any streamed body exceeding
`MAX_WEB_BYTES = 2 MiB` (for example 2 MiB + 1 bytes) is rejected with
the user error `"Web response too large"`; and every body the fetch
accepts is the full response body and is at most 2 MiB long. -/
theorem c4_web_fetch_limits :
    MAX_WEB_BYTES = 2 * 1024 * 1024
    ∧ (∀ r : HttpResp, 300 ≤ r.statusCode → r.statusCode < 400 →
        fetchHtml r = .error (.userError "Redirects are not allowed"))
    ∧ (∀ r : HttpResp, r.statusCode < 300 → MAX_WEB_BYTES < r.bodyBytes.length →
        fetchHtml r = .error (.userError "Web response too large"))
    ∧ (∀ (r : HttpResp) (b : List Nat) (enc : String), fetchHtml r = .ok (b, enc) →
        b = r.bodyBytes ∧ b.length ≤ MAX_WEB_BYTES) := by
  refine ⟨rfl, fun r h3 h4 => ?_, fun r hs hov => ?_, fun r b enc h => ?_⟩
  · unfold fetchHtml
    rw [if_pos ⟨h3, h4⟩]
  · unfold fetchHtml
    rw [if_neg (by omega), if_neg (by omega),
      fetchBody_overflow (chunk64 r.bodyBytes) [] (by simp)
        (by simpa [chunk64_flatten] using hov)]
  · unfold fetchHtml at h
    split at h
    · simp at h
    · split at h
      · simp at h
      · rcases hb : fetchBody [] (chunk64 r.bodyBytes) with e | l
        · rw [hb] at h
          simp at h
        · rw [hb] at h
          simp only [Except.ok.injEq, Prod.mk.injEq] at h
          obtain ⟨hbl, _⟩ := h
          obtain ⟨h1, h2⟩ := fetchBody_ok (chunk64 r.bodyBytes) [] l hb (by simp)
          subst hbl
          rw [chunk64_flatten] at h1
          simp only [List.nil_append] at h1
          exact ⟨h1, h2⟩

/-- C4 witness: a 302 response is rejected as a redirect; a 200 response
of exactly 2 MiB + 1 bytes is rejected as too large; a 200 response with
a 3-byte body is accepted in full, within the cap. -/
theorem c4_web_fetch_limits_witness :
    fetchHtml ⟨302, [], none⟩ = .error (.userError "Redirects are not allowed")
    ∧ fetchHtml ⟨200, List.replicate (MAX_WEB_BYTES + 1) 0, none⟩ =
      .error (.userError "Web response too large")
    ∧ ([1, 2, 3] : List Nat) = (⟨200, [1, 2, 3], some ""⟩ : HttpResp).bodyBytes
    ∧ ([1, 2, 3] : List Nat).length ≤ MAX_WEB_BYTES :=
  ⟨c4_web_fetch_limits.2.1 ⟨302, [], none⟩ (by norm_num) (by norm_num),
    c4_web_fetch_limits.2.2.1 ⟨200, List.replicate (MAX_WEB_BYTES + 1) 0, none⟩
      (by norm_num) (by simp),
    (c4_web_fetch_limits.2.2.2 ⟨200, [1, 2, 3], some ""⟩ [1, 2, 3] "utf-8" rfl).1,
    (c4_web_fetch_limits.2.2.2 ⟨200, [1, 2, 3], some ""⟩ [1, 2, 3] "utf-8" rfl).2⟩

/-! ## Claims C6 and C2: compression pipeline invariants -/

theorem addCandidate_valid (qp : Bool) (exp : Nat) (cands : List Candidate)
    (p : Nat) (f : PFile) (m : String)
    (hall : ∀ c ∈ cands, validateCandidate qp exp c.file = true) :
    ∀ c ∈ addCandidate qp exp cands p f m, validateCandidate qp exp c.file = true := by
  unfold addCandidate
  split
  · next hval =>
      intro c hc
      rcases List.mem_append.mp hc with hcc | hcc
      · exact hall c hcc
      · simp only [List.mem_singleton] at hcc
        subst hcc
        exact hval
  · exact hall

theorem collectCandidates_valid (qp : Bool) (exp : Nat) :
    ∀ (l : List Attempt) (init : List Candidate),
      (∀ c ∈ init, validateCandidate qp exp c.file = true) →
      ∀ c ∈ collectCandidates qp exp init l, validateCandidate qp exp c.file = true := by
  intro l
  induction l with
  | nil =>
      intro init h
      rw [collectCandidates]
      exact h
  | cons a rest ih =>
      intro init h
      rcases a with ⟨p, f, m⟩
      rw [collectCandidates]
      exact ih _ (addCandidate_valid qp exp init p f m h)

theorem collectCandidates_prefix (qp : Bool) (exp : Nat) :
    ∀ (l : List Attempt) (init : List Candidate),
      ∃ t, collectCandidates qp exp init l = init ++ t := by
  intro l
  induction l with
  | nil =>
      intro init
      exact ⟨[], by rw [collectCandidates, List.append_nil]⟩
  | cons a rest ih =>
      intro init
      rcases a with ⟨p, f, m⟩
      rw [collectCandidates]
      unfold addCandidate
      split
      · obtain ⟨t, ht⟩ := ih (init ++ [⟨p, f, m⟩])
        refine ⟨⟨p, f, m⟩ :: t, ?_⟩
        rw [ht, List.append_assoc]
        rfl
      · exact ih init

theorem bestBySize_mem : ∀ (l : List Candidate) (b : Candidate),
    bestBySize l = some b → b ∈ l := by
  intro l
  induction l with
  | nil =>
      intro b h
      simp [bestBySize] at h
  | cons c rest ih =>
      intro b h
      rw [bestBySize] at h
      rcases hr : bestBySize rest with _ | b0
      · rw [hr] at h
        simp only [Option.elim_none, Option.some.injEq] at h
        subst h
        exact List.mem_cons_self c rest
      · rw [hr] at h
        simp only [Option.elim_some] at h
        split at h
        · simp only [Option.some.injEq] at h
          subst h
          exact List.mem_cons_of_mem c (ih b0 hr)
        · simp only [Option.some.injEq] at h
          subst h
          exact List.mem_cons_self c rest

theorem allCands_valid (e : CompressEnv) :
    ∀ c ∈ allCands e, validateCandidate e.qpdf e.expectedPages c.file = true := by
  unfold allCands
  apply collectCandidates_valid
  unfold seqCands
  apply collectCandidates_valid
  intro c hc
  simp at hc

theorem allCands_head (e : CompressEnv)
    (hvalid : validateCandidate e.qpdf e.expectedPages e.input = true) :
    ∃ t, allCands e = ⟨0, e.input, "original"⟩ :: t := by
  unfold allCands seqCands
  rw [collectCandidates]
  rw [show addCandidate e.qpdf e.expectedPages [] 0 e.input "original" =
      [⟨0, e.input, "original"⟩] from by unfold addCandidate; rw [if_pos hvalid]; rfl]
  obtain ⟨t1, h1⟩ := collectCandidates_prefix e.qpdf e.expectedPages (seqAttempts e)
    [⟨0, e.input, "original"⟩]
  obtain ⟨t2, h2⟩ := collectCandidates_prefix e.qpdf e.expectedPages
    (laneAttempts e (shouldRunHeavyOf e)) ([⟨0, e.input, "original"⟩] ++ t1)
  refine ⟨t1 ++ t2, ?_⟩
  rw [h1, h2]
  simp

theorem find_original (e : CompressEnv)
    (hvalid : validateCandidate e.qpdf e.expectedPages e.input = true) :
    (allCands e).find? (fun c => c.path == 0) = some ⟨0, e.input, "original"⟩ := by
  obtain ⟨t, ht⟩ := allCands_head e hvalid
  rw [ht]
  simp [List.find?]

theorem chosenCandidate_mem (e : CompressEnv) (best0 : Candidate)
    (hb : bestBySize (allCands e) = some best0) :
    chosenCandidate e best0 ∈ allCands e := by
  unfold chosenCandidate
  split
  · rcases hf : (allCands e).find? (fun c => c.path == 0) with _ | c
    · rw [hf]
      simp only [Option.getD_none]
      exact bestBySize_mem _ _ hb
    · rw [hf]
      simp only [Option.getD_some]
      exact List.mem_of_find?_eq_some hf
  · exact bestBySize_mem _ _ hb

theorem afterDet_valid (e : CompressEnv) (f0 : PFile)
    (h : validateCandidate e.qpdf e.expectedPages f0 = true) :
    validateCandidate e.qpdf e.expectedPages (afterDet e f0) = true := by
  unfold afterDet
  split
  · split
    · split
      · next hval => exact hval
      · exact h
    · exact h
  · exact h

theorem zopfliStep_none_eq (e : CompressEnv) (f1 : PFile)
    (hres : e.zopfliRes = none) : zopfliStep e f1 = some f1 := by
  unfold zopfliStep
  split
  · rw [hres]
  · rfl

theorem zopfliStep_some_eq (e : CompressEnv) (f1 f : PFile)
    (hz0 : (e.useZopfli && e.qpdf) = true) (hres : e.zopfliRes = some f) :
    zopfliStep e f1 =
      (if validateCandidate e.qpdf e.expectedPages f then
        (if ((e.input.size - f.size : Nat) : Int) < e.minSavingsBytes then some f1
          else if e.input.size = 0 then none
          else if e.threshold ≤ ((e.input.size - f.size : Nat) : ℚ) / (e.input.size : ℚ)
            then some f else some f1)
      else some f1) := by
  unfold zopfliStep
  rw [if_pos hz0, hres]

theorem zopfliStep_valid (e : CompressEnv) (f1 g : PFile)
    (hz : zopfliStep e f1 = some g)
    (h1 : validateCandidate e.qpdf e.expectedPages f1 = true) :
    validateCandidate e.qpdf e.expectedPages g = true := by
  by_cases hz0 : (e.useZopfli && e.qpdf) = true
  · rcases hres : e.zopfliRes with _ | f
    · rw [zopfliStep_none_eq e f1 hres] at hz
      simp only [Option.some.injEq] at hz
      subst hz
      exact h1
    · rw [zopfliStep_some_eq e f1 f hz0 hres] at hz
      by_cases hval : validateCandidate e.qpdf e.expectedPages f = true
      · rw [if_pos hval] at hz
        by_cases hlt : ((e.input.size - f.size : Nat) : Int) < e.minSavingsBytes
        · rw [if_pos hlt] at hz
          simp only [Option.some.injEq] at hz
          subst hz
          exact h1
        · rw [if_neg hlt] at hz
          by_cases hz2 : e.input.size = 0
          · rw [if_pos hz2] at hz
            simp at hz
          · rw [if_neg hz2] at hz
            by_cases hth : e.threshold ≤ ((e.input.size - f.size : Nat) : ℚ) / (e.input.size : ℚ)
            · rw [if_pos hth] at hz
              simp only [Option.some.injEq] at hz
              subst hz
              exact hval
            · rw [if_neg hth] at hz
              simp only [Option.some.injEq] at hz
              subst hz
              exact h1
      · rw [if_neg hval] at hz
        simp only [Option.some.injEq] at hz
        subst hz
        exact h1
  · have he : zopfliStep e f1 = some f1 := by
      unfold zopfliStep
      rw [if_neg hz0]
    rw [he] at hz
    simp only [Option.some.injEq] at hz
    subst hz
    exact h1

theorem compressRun_some_elim (e : CompressEnv) (o : CompressOutcome)
    (h : compressRun e = some o) :
    ∃ best0, bestBySize (allCands e) = some best0
      ∧ o.candidates = allCands e
      ∧ o.status = selectionStatus e best0
      ∧ o.method = methodOf best0
      ∧ zopfliStep e (afterDet e (chosenCandidate e best0).file) = some o.finalFile := by
  unfold compressRun at h
  split at h
  · exact absurd h (by simp)
  · next best0 hb =>
      rcases hz : zopfliStep e (afterDet e (chosenCandidate e best0).file) with _ | fin
      · rw [hz] at h
        simp at h
      · rw [hz] at h
        simp only [Option.some.injEq] at h
        subst h
        exact ⟨best0, hb, rfl, rfl, rfl, hz⟩

/-- C6: the selection set only ever holds candidates that satisfy the
validation predicate — in the full selection set of every run, in the
candidate list of every returned outcome — and `_add_candidate` leaves
the set unchanged when offered a file that fails validation. -/
theorem c6_candidate_invariant :
    (∀ e : CompressEnv, ∀ c ∈ allCands e,
      validateCandidate e.qpdf e.expectedPages c.file = true)
    ∧ (∀ (e : CompressEnv) (o : CompressOutcome), compressRun e = some o →
        ∀ c ∈ o.candidates, validateCandidate e.qpdf e.expectedPages c.file = true)
    ∧ (∀ (qp : Bool) (exp : Nat) (cands : List Candidate) (p : Nat) (f : PFile)
        (m : String), validateCandidate qp exp f = false →
        addCandidate qp exp cands p f m = cands) := by
  refine ⟨fun e => allCands_valid e, fun e o h c hc => ?_,
    fun qp exp cands p f m hf => ?_⟩
  · obtain ⟨best0, _, hcands, _, _, _⟩ := compressRun_some_elim e o h
    rw [hcands] at hc
    exact allCands_valid e c hc
  · simp [addCandidate, hf]

/-- C6 witness: in a concrete run where mutool normalization succeeds and
an early-ghostscript output has the wrong page count, the original file
is in the selection set and validates, while `_add_candidate` drops the
corrupt ghostscript output. -/
theorem c6_candidate_invariant_witness :
    (⟨0, exC2Input, "original"⟩ : Candidate) ∈ allCands exC6Env
    ∧ validateCandidate exC6Env.qpdf exC6Env.expectedPages exC2Input = true
    ∧ addCandidate false 1 [] 6 exC6Bad "ghostscript" = [] := by
  have hm : (⟨0, exC2Input, "original"⟩ : Candidate) ∈ allCands exC6Env := by decide
  exact ⟨hm, c6_candidate_invariant.1 exC6Env ⟨0, exC2Input, "original"⟩ hm,
    c6_candidate_invariant.2.2 false 1 [] 6 exC6Bad "ghostscript" (by decide)⟩

/-- C2 counterexample: a run at default thresholds where qpdf shaves only
1000 bytes reports status `no_change`, yet the deterministic-id pass
rewrites the output afterwards, so the final file (content id 3) is not
bitwise identical to the input (content id 0), refuting the claimed
equivalence between `no_change` and bitwise identity. -/
theorem c2_final_output_counterexample :
    compressRun exC2Env = some ⟨exC2Det, .noChange,
      [⟨0, exC2Input, "original"⟩, ⟨2, exC2Norm, "qpdf"⟩, ⟨4, exC2Opt, "qpdf"⟩], "qpdf"⟩
    ∧ exC2Det.content ≠ exC2Input.content := by
  exact ⟨by decide, by decide⟩

/-- C2 (amended): the file a returning compression run leaves at the
output path always satisfies the validation predicate (valid structure,
expected page count, renderable first page); when the status is
`no_change`, the original validated, and qpdf is absent — so neither the
deterministic-id pass nor the zopfli pass can rewrite the output — the
final file is bitwise identical to the input. -/
theorem c2_final_output (e : CompressEnv) (o : CompressOutcome)
    (h : compressRun e = some o) :
    validateCandidate e.qpdf e.expectedPages o.finalFile = true
    ∧ (o.status = .noChange → e.qpdf = false →
        validateCandidate e.qpdf e.expectedPages e.input = true →
        o.finalFile.content = e.input.content) := by
  obtain ⟨best0, hb, hcands, hstat, hmeth, hz⟩ := compressRun_some_elim e o h
  have hch : chosenCandidate e best0 ∈ allCands e := chosenCandidate_mem e best0 hb
  have hv0 := allCands_valid e _ hch
  have hv1 := afterDet_valid e _ hv0
  constructor
  · exact zopfliStep_valid e _ _ hz hv1
  · intro hst hq hvin
    rw [hstat] at hst
    have hchosen : chosenCandidate e best0 = ⟨0, e.input, "original"⟩ := by
      unfold chosenCandidate
      rw [if_pos hst, find_original e hvin]
      rfl
    have hdet : afterDet e (chosenCandidate e best0).file = (chosenCandidate e best0).file := by
      unfold afterDet
      rw [if_neg (by rw [hq]; simp)]
    have hzop : zopfliStep e ((chosenCandidate e best0).file) =
        some ((chosenCandidate e best0).file) := by
      unfold zopfliStep
      rw [if_neg (by rw [hq]; simp)]
    rw [hdet, hzop] at hz
    simp only [Option.some.injEq] at hz
    rw [← hz, hchosen]

/-- C2 witness: a concrete tool-free run (only the pypdf rewrite
succeeds) returns with status `no_change`; the theorem yields that the
final file validates and is bitwise identical to the input. -/
theorem c2_final_output_witness :
    compressRun exC2PlainEnv = some ⟨exC2Input, .noChange,
      [⟨0, exC2Input, "original"⟩, ⟨3, exC2Rewrite, "pypdf"⟩], "pypdf"⟩
    ∧ validateCandidate exC2PlainEnv.qpdf exC2PlainEnv.expectedPages exC2Input = true
    ∧ exC2Input.content = exC2PlainEnv.input.content := by
  have h : compressRun exC2PlainEnv = some ⟨exC2Input, .noChange,
      [⟨0, exC2Input, "original"⟩, ⟨3, exC2Rewrite, "pypdf"⟩], "pypdf"⟩ := by decide
  exact ⟨h, (c2_final_output exC2PlainEnv _ h).1,
    (c2_final_output exC2PlainEnv _ h).2 rfl rfl (by decide)⟩

end ZenPDF
